import Mathlib

/-!
Verification development for the aerynos_tools repository.

Two components are embedded:

* `Tui` — the event-loop runtime of src/tui/src/runtime.rs: the `run`
  event loop (its per-input transition and the loop over a sequence of
  inputs), the unbounded mpsc channel, and the cloneable `Handle`.
  The loop body is embedded as a pure transition function `step` on an
  explicit `LoopState`; the effects the Rust code performs against the
  terminal backend (draw, insert_before, show_cursor, clear) are recorded
  in an operation trace, and the possibility of a terminal I/O failure is
  modelled by a behaviour oracle `beh : Nat → Bool` saying whether the
  n-th terminal operation of the run succeeds.

* `Boulder` — the path-mapping utility of src/crates/boulder/src/paths.rs:
  `Paths::rootfs` and `Paths::guest_host_path`, over a model of Unix
  std::path semantics (absolute-flag plus component list).
-/

namespace Tui

/-- Embedding of `enum Event<Message> { Message(Message), Print(String) }`
(src/tui/src/runtime.rs). -/
inductive Event (M : Type) where
  | Message : M → Event M
  | Print : String → Event M
deriving DecidableEq

/-- Model of tokio's `task::JoinError` (the background task panicked or was
cancelled); opaque to the loop, which only converts it into an I/O error. -/
structure JoinError where
  panicked : Bool
deriving DecidableEq

/-- The terminal-backend operations the loop performs, as recorded in the
run trace: `terminal.insert_before(n, ..)` with its u16 height argument and
the scrollback lines rendered, `terminal.draw(..)`, `terminal.show_cursor()`
and `terminal.clear()`. -/
inductive TermOp where
  | insertBefore (height : Nat) (lines : List String)
  | draw
  | showCursor
  | clear
deriving DecidableEq

/-- Model of `std::io::Error` as the loop produces it: either converted from
a `JoinError` by the `?` on the finished handle, or a failing terminal
operation (identified by its index in the run and the operation). -/
inductive IOError where
  | fromJoin (e : JoinError)
  | termFail (opIndex : Nat) (op : TermOp)
deriving DecidableEq

/-- Embedding of `enum Input<T> { Render, Finished(T), Term }` from `run`;
the payload of `Finished` is the `Result<T, JoinError>` produced by
`task::spawn_blocking`. -/
inductive Input (T : Type) where
  | Render
  | Finished (res : Except JoinError T)
  | Term

/-- Split a character sequence at every newline, a final line terminator
producing no trailing empty piece (the semantics of Rust's
split_terminator with a newline pattern). -/
def splitLines : List Char → List (List Char)
  | [] => []
  | c :: rest =>
    if c = '\n' then [] :: splitLines rest
    else
      match splitLines rest with
      | [] => [[c]]
      | l :: ls => (c :: l) :: ls

/-- Drop one trailing carriage return (the CR of a CRLF line ending). -/
def stripCr (l : List Char) : List Char :=
  if l.getLast? = some '\r' then l.dropLast else l

/-- Model of Rust's `str::lines()`: split at newlines, a final line
terminator produces no trailing empty line, and a trailing carriage return
is stripped from each produced line. -/
def rustLines (s : String) : List String :=
  (splitLines s.data).map fun l => String.mk (stripCr l)

/-- The state of one iteration of the event loop: the program value, the
events currently queued in the channel, the trace of successfully executed
terminal operations, and how many terminal operations have been attempted
(consumed from the behaviour oracle). -/
structure LoopState (S M : Type) where
  program : S
  queue : List (Event M)
  trace : List TermOp
  opCount : Nat
deriving DecidableEq

/-- Perform one terminal operation under the behaviour oracle `beh`: if the
oracle says the next operation succeeds, record it in the trace, otherwise
fail with an I/O error (the Rust `?` operator's path). -/
def termOp (beh : Nat → Bool) (st : LoopState S M) (op : TermOp) :
    Except IOError (LoopState S M) :=
  if beh st.opCount then
    Except.ok { st with trace := st.trace ++ [op], opCount := st.opCount + 1 }
  else
    Except.error (IOError.termFail st.opCount op)

/-- Embedding of the drain loop
`while let Ok(event) = receiver.try_recv() { .. }`: consume every queued
event, applying `program.update` to each `Message` in order and pushing each
`Print` payload onto the `print` vector in order. -/
def drain (upd : S → M → S) : S → List (Event M) → S × List String
  | s, [] => (s, [])
  | s, Event.Message m :: rest => drain upd (upd s m) rest
  | s, Event.Print c :: rest =>
    let r := drain upd s rest
    (r.1, c :: r.2)

/-- The messages of a queue, in queue order (what `update` is applied to). -/
def messagesOf : List (Event M) → List M
  | [] => []
  | Event.Message m :: rest => m :: messagesOf rest
  | Event.Print _ :: rest => messagesOf rest

/-- The print payloads of a queue, in queue order. -/
def printsOf : List (Event M) → List String
  | [] => []
  | Event.Message _ :: rest => printsOf rest
  | Event.Print c :: rest => c :: printsOf rest

/-- Embedding of `print.iter().flat_map(|content| content.lines())`. -/
def flatLines (prints : List String) : List String :=
  (prints.map rustLines).flatten

/-- The outcome of processing one loop input: continue looping, return a
`Result` to the caller of `run` (the `return Ok(ret)` and every `?`), or
terminate the whole process via `std::process::exit`. -/
inductive Outcome (T S M : Type) where
  | next (st : LoopState S M)
  | ret (r : Except IOError T) (st : LoopState S M)
  | exited (code : Nat) (st : LoopState S M)

/-- Embedding of the body of `loop { .. match input { .. } }` in `run`
(src/tui/src/runtime.rs lines 70-118), one input at a time.

* `Render`: drain the channel, then if any print content was accumulated
  insert the split lines above the viewport (`insert_before` receives
  `num_lines as u16`, i.e. the count reduced mod 65536), then draw.
* `Finished(res)`: `let ret = handle?;` — a join failure is propagated
  immediately (before any terminal restoration); on success the cursor is
  shown, the viewport cleared, and the value returned.
* `Term`: show the cursor, clear the viewport, `std::process::exit(0)`. -/
def step (upd : S → M → S) (beh : Nat → Bool) (st : LoopState S M) :
    Input T → Outcome T S M
  | Input.Render =>
    let r := drain upd st.program st.queue
    let st1 : LoopState S M := { st with program := r.1, queue := [] }
    let afterInsert : Except IOError (LoopState S M) :=
      if r.2.isEmpty then Except.ok st1
      else
        let lines := flatLines r.2
        termOp beh st1 (TermOp.insertBefore (lines.length % 65536) lines)
    match afterInsert with
    | Except.error e => Outcome.ret (Except.error e) st1
    | Except.ok st2 =>
      match termOp beh st2 TermOp.draw with
      | Except.error e => Outcome.ret (Except.error e) st2
      | Except.ok st3 => Outcome.next st3
  | Input.Finished res =>
    match res with
    | Except.error je => Outcome.ret (Except.error (IOError.fromJoin je)) st
    | Except.ok t =>
      match termOp beh st TermOp.showCursor with
      | Except.error e => Outcome.ret (Except.error e) st
      | Except.ok st1 =>
        match termOp beh st1 TermOp.clear with
        | Except.error e => Outcome.ret (Except.error e) st1
        | Except.ok st2 => Outcome.ret (Except.ok t) st2
  | Input.Term =>
    match termOp beh st TermOp.showCursor with
    | Except.error e => Outcome.ret (Except.error e) st
    | Except.ok st1 =>
      match termOp beh st1 TermOp.clear with
      | Except.error e => Outcome.ret (Except.error e) st1
      | Except.ok st2 => Outcome.exited 0 st2

/-- An external happening the loop is exposed to: either a producer's send
arriving on the channel, or one of the three merged loop inputs becoming
ready. -/
inductive Ext (M T : Type) where
  | send (e : Event M)
  | input (i : Input T)

/-- Result of running the loop against a finite schedule of external
happenings: still running (schedule exhausted), returned to the caller of
`run`, or the process exited; the two terminal cases carry the suffix of
the schedule that was never processed. -/
inductive RunResult (T S M : Type) where
  | pending (st : LoopState S M)
  | returned (r : Except IOError T) (st : LoopState S M) (rest : List (Ext M T))
  | exited (code : Nat) (st : LoopState S M) (rest : List (Ext M T))

/-- Run the event loop over a schedule: sends append to the channel queue
(FIFO), inputs are dispatched through `step`; a `ret` or `exited` outcome
stops the loop, leaving the remaining schedule unprocessed. -/
def runLoop (upd : S → M → S) (beh : Nat → Bool) :
    LoopState S M → List (Ext M T) → RunResult T S M
  | st, [] => RunResult.pending st
  | st, Ext.send e :: rest =>
    runLoop upd beh { st with queue := st.queue ++ [e] } rest
  | st, Ext.input i :: rest =>
    match step upd beh st i with
    | Outcome.next st1 => runLoop upd beh st1 rest
    | Outcome.ret r st1 => RunResult.returned r st1 rest
    | Outcome.exited c st1 => RunResult.exited c st1 rest

/-- Model of tokio's unbounded mpsc channel as the Handle sees it: the FIFO
queue of undelivered events and whether the receiving side still exists. -/
structure UnboundedChannel (M : Type) where
  receiverAlive : Bool
  queue : List (Event M)
deriving DecidableEq

/-- Model of `UnboundedSender::send`: enqueue when the receiver is alive,
otherwise fail, handing the rejected event back in the error. -/
def channelSend (ch : UnboundedChannel M) (e : Event M) :
    UnboundedChannel M × Except (Event M) Unit :=
  if ch.receiverAlive then
    ({ ch with queue := ch.queue ++ [e] }, Except.ok ())
  else
    (ch, Except.error e)

namespace Handle

/-- Embedding of `Handle::print`:
`let _ = self.sender.send(Event::Print(content));` — the send's result is
discarded, so the function is total and returns only the channel state. -/
def print (ch : UnboundedChannel M) (content : String) : UnboundedChannel M :=
  (channelSend ch (Event.Print content)).1

/-- Embedding of `Handle::update`:
`let _ = self.sender.send(Event::Message(message));`. -/
def update (ch : UnboundedChannel M) (message : M) : UnboundedChannel M :=
  (channelSend ch (Event.Message message)).1

end Handle

/-- One producer-side send through the Handle, dispatching on the event
kind (as producers do via `Handle::update` / `Handle::print`). -/
def producerSend (ch : UnboundedChannel M) (e : Event M) : UnboundedChannel M :=
  match e with
  | Event.Message m => Handle.update ch m
  | Event.Print c => Handle.print ch c

/-- Fold an interleaved sequence of producer sends into the channel. -/
def sendAll (ch : UnboundedChannel M) (events : List (Event M)) :
    UnboundedChannel M :=
  events.foldl producerSend ch

end Tui

namespace Boulder

/-- Model of a Unix `std::path::PathBuf`: whether the path is absolute
(starts with the root component) and its list of normal components. -/
structure RustPath where
  absolute : Bool
  components : List String
deriving DecidableEq

/-- Model of `Path::join` / `PathBuf::push`: an absolute argument replaces
the whole path, a relative argument extends it. -/
def RustPath.join (p q : RustPath) : RustPath :=
  if q.absolute then q else ⟨p.absolute, p.components ++ q.components⟩

/-- Split a character sequence at every slash, keeping empty pieces. -/
def splitSlash : List Char → List (List Char)
  | [] => [[]]
  | c :: rest =>
    if c = '/' then [] :: splitSlash rest
    else
      match splitSlash rest with
      | [] => [[c]]
      | l :: ls => (c :: l) :: ls

/-- Whether a character sequence begins with the root separator. -/
def startsWithSlash : List Char → Bool
  | '/' :: _ => true
  | _ => false

/-- Parse a Unix path string into its absolute flag and components
(adjacent and leading separators produce no empty components). -/
def parsePath (s : String) : RustPath :=
  ⟨startsWithSlash s.data,
   ((splitSlash s.data).filter (fun l => l != [])).map String.mk⟩

/-- Model of `mapping.guest.strip_prefix("/").unwrap_or(&mapping.guest)`
(src/crates/boulder/src/paths.rs line 121): remove the root component when
the path is absolute, otherwise keep the path unchanged. -/
def stripRootDir (p : RustPath) : RustPath :=
  if p.absolute then ⟨false, p.components⟩ else p

/-- Embedding of `struct Paths` (src/crates/boulder/src/paths.rs): the
build id (the `Id` newtype's string), plus the three directory roots. The
`recipe_dir` field exists in the source but is unused by the functions
verified here; it is kept for shape fidelity. -/
structure Paths where
  id : String
  host_root : RustPath
  guest_root : RustPath
  recipe_dir : RustPath
deriving DecidableEq

/-- Embedding of `struct Mapping { host: PathBuf, guest: PathBuf }`. -/
structure Mapping where
  host : RustPath
  guest : RustPath
deriving DecidableEq

/-- Embedding of `Paths::rootfs`:
host = `self.host_root.join("root").join(&self.id.0)`, guest = `"/"`. -/
def Paths.rootfs (p : Paths) : Mapping :=
  { host := (p.host_root.join (parsePath "root")).join (parsePath p.id),
    guest := parsePath "/" }

/-- Embedding of `Paths::guest_host_path`: strip one leading `/` from the
mapping's guest path when present and join the result onto the rootfs host
directory. -/
def Paths.guest_host_path (p : Paths) (mapping : Mapping) : RustPath :=
  let relative := stripRootDir mapping.guest
  (p.rootfs).host.join relative

end Boulder

namespace Tui

/-- Recognizer for the redraw operation. -/
def isDraw : TermOp → Bool
  | TermOp.draw => true
  | _ => false

/-- Recognizer for the cursor-restore operation. -/
def isShowCursor : TermOp → Bool
  | TermOp.showCursor => true
  | _ => false

/-- Recognizer for the viewport-clear operation. -/
def isClear : TermOp → Bool
  | TermOp.clear => true
  | _ => false

/-- Number of operations in a trace satisfying a recognizer. -/
def countOp (p : TermOp → Bool) (tr : List TermOp) : Nat :=
  (tr.filter p).length

theorem countOp_append (p : TermOp → Bool) (tr tr' : List TermOp) :
    countOp p (tr ++ tr') = countOp p tr + countOp p tr' := by
  simp [countOp, List.filter_append]

/-- The drain loop applies `update` to exactly the queued messages, in
queue order, and accumulates exactly the queued print payloads, in queue
order. -/
theorem drain_eq (upd : S → M → S) (s : S) (q : List (Event M)) :
    drain upd s q = (List.foldl upd s (messagesOf q), printsOf q) := by
  induction q generalizing s with
  | nil => rfl
  | cons e rest ih => cases e <;> simp [drain, messagesOf, printsOf, ih]

/-- Characterization of one `Render` tick when the terminal operations
succeed: the queue is fully drained, `update` folds over the queued
messages in order, and the trace is extended by exactly one redraw,
preceded by one scrollback insertion when print content was drained. -/
theorem step_render (upd : S → M → S) (beh : Nat → Bool)
    (st : LoopState S M) (hbeh : ∀ n, beh n = true) :
    step (T := T) upd beh st Input.Render = Outcome.next
      { program := List.foldl upd st.program (messagesOf st.queue)
        queue := []
        trace := st.trace ++
          (if printsOf st.queue = [] then [TermOp.draw]
           else [TermOp.insertBefore ((flatLines (printsOf st.queue)).length % 65536)
                   (flatLines (printsOf st.queue)), TermOp.draw])
        opCount := st.opCount + (if printsOf st.queue = [] then 1 else 2) } := by
  by_cases hp : printsOf st.queue = [] <;>
    simp [step, drain_eq, hp, termOp, hbeh, List.isEmpty_iff, List.append_assoc]

/-- Folding sends into a live channel delivers every event to the queue in
send order. -/
theorem sendAll_alive (q : List (Event M)) (events : List (Event M)) :
    sendAll ⟨true, q⟩ events = ⟨true, q ++ events⟩ := by
  induction events generalizing q with
  | nil => simp [sendAll]
  | cons e rest ih =>
    cases e <;>
      simp only [sendAll, List.foldl, producerSend, Handle.update, Handle.print,
        channelSend, if_pos trivial] at ih ⊢ <;>
      rw [ih] <;> simp

/-- Claim C1: on every Render tick the channel is drained of exactly the
events currently available (the queue is left empty), Program.update is
applied once per drained Message in the order the messages were sent, and
exactly one redraw occurs for the tick regardless of how many events were
drained, including zero. (Terminal operations are assumed to succeed;
non-blocking drain is inherent in the model, which consumes only the
currently queued events.) -/
theorem render_tick_drain_update_single_redraw
    (upd : S → M → S) (beh : Nat → Bool) (st : LoopState S M)
    (hbeh : ∀ n, beh n = true) :
    ∃ st1, step (T := T) upd beh st Input.Render = Outcome.next st1
      ∧ st1.program = List.foldl upd st.program (messagesOf st.queue)
      ∧ st1.queue = []
      ∧ countOp isDraw st1.trace = countOp isDraw st.trace + 1 := by
  refine ⟨_, step_render upd beh st hbeh, rfl, rfl, ?_⟩
  by_cases hp : printsOf st.queue = [] <;>
    simp [hp, countOp_append, countOp, isDraw]

theorem render_tick_drain_update_single_redraw_witness :
    (∀ n, (fun _ : Nat => true) n = true) ∧
    (∃ st1,
      step (T := Unit) (fun (s m : Nat) => s + m) (fun _ => true)
          ⟨0, [Event.Message 1, Event.Print "a\nb", Event.Message 2], [], 0⟩
          Input.Render
        = Outcome.next st1
      ∧ st1.program = List.foldl (fun (s m : Nat) => s + m) 0
          (messagesOf [Event.Message 1, Event.Print "a\nb", Event.Message 2])
      ∧ st1.queue = []
      ∧ countOp isDraw st1.trace = countOp isDraw [] + 1) :=
  ⟨fun _ => rfl,
   render_tick_drain_update_single_redraw (fun s m => s + m) (fun _ => true)
     ⟨0, [Event.Message 1, Event.Print "a\nb", Event.Message 2], [], 0⟩
     (fun _ => rfl)⟩

/-- Claim C2: when the loop receives Finished with a successful
background-task result, run returns to its caller exactly the value the
caller-supplied function produced, and the rest of the schedule — however
many Render or Term inputs it holds — is left unprocessed. (The two
teardown terminal operations are assumed to succeed.) -/
theorem finished_ok_returns_value
    (upd : S → M → S) (beh : Nat → Bool) (st : LoopState S M) (t : T)
    (rest : List (Ext M T))
    (h1 : beh st.opCount = true) (h2 : beh (st.opCount + 1) = true) :
    runLoop upd beh st (Ext.input (Input.Finished (Except.ok t)) :: rest)
      = RunResult.returned (Except.ok t)
          { st with
            trace := st.trace ++ [TermOp.showCursor, TermOp.clear]
            opCount := st.opCount + 2 } rest := by
  simp [runLoop, step, termOp, h1, h2]

theorem finished_ok_returns_value_witness :
    ((fun _ : Nat => true) 0 = true) ∧ ((fun _ : Nat => true) (0 + 1) = true) ∧
    runLoop (fun (s : Nat) (_ : Nat) => s) (fun _ => true)
        ⟨7, [], [], 0⟩
        (Ext.input (Input.Finished (Except.ok 42)) ::
          [Ext.input Input.Render, Ext.input Input.Term])
      = RunResult.returned (Except.ok 42)
          ⟨7, [], [TermOp.showCursor, TermOp.clear], 2⟩
          [Ext.input Input.Render, Ext.input Input.Term] :=
  ⟨rfl, rfl,
   finished_ok_returns_value (fun s _ => s) (fun _ => true) ⟨7, [], [], 0⟩ 42
     [Ext.input Input.Render, Ext.input Input.Term] rfl rfl⟩

/-- Claim C3: when the loop receives Term, it restores the cursor, clears
the viewport and terminates the whole process with exit status 0; this
outcome is a process exit, not a return to run's caller, for every program
state, every queue content and every remaining schedule. (The two teardown
terminal operations are assumed to succeed.) -/
theorem term_restores_and_exits_process
    (upd : S → M → S) (beh : Nat → Bool) (st : LoopState S M)
    (rest : List (Ext M T))
    (h1 : beh st.opCount = true) (h2 : beh (st.opCount + 1) = true) :
    runLoop upd beh st (Ext.input Input.Term :: rest)
      = RunResult.exited 0
          { st with
            trace := st.trace ++ [TermOp.showCursor, TermOp.clear]
            opCount := st.opCount + 2 } rest := by
  simp [runLoop, step, termOp, h1, h2]

theorem term_restores_and_exits_process_witness :
    ((fun _ : Nat => true) 0 = true) ∧ ((fun _ : Nat => true) (0 + 1) = true) ∧
    runLoop (T := Nat) (fun (s : Nat) (_ : Nat) => s) (fun _ => true)
        ⟨7, [Event.Print "pending"], [], 0⟩
        (Ext.input Input.Term :: [Ext.input Input.Render])
      = RunResult.exited 0
          ⟨7, [Event.Print "pending"], [TermOp.showCursor, TermOp.clear], 2⟩
          [Ext.input Input.Render] :=
  ⟨rfl, rfl,
   term_restores_and_exits_process (fun s _ => s) (fun _ => true)
     ⟨7, [Event.Print "pending"], [], 0⟩ [Ext.input Input.Render] rfl rfl⟩

/-- Claim C5: when the loop receives Finished carrying a background-task
failure, run propagates that failure to its caller as an I/O-class error
(the JoinError converted into an IOError); the caller observes an error and
never a success value, and the remaining schedule is unprocessed. -/
theorem finished_err_propagates
    (upd : S → M → S) (beh : Nat → Bool) (st : LoopState S M)
    (je : JoinError) (rest : List (Ext M T)) :
    runLoop upd beh st (Ext.input (Input.Finished (Except.error je)) :: rest)
      = RunResult.returned (Except.error (IOError.fromJoin je)) st rest := by
  simp [runLoop, step]

end Tui

namespace Tui

/-- Claim C4 counterexample: on a background-task failure the loop exits
without any terminal teardown. At a concrete state with an empty trace,
receiving Finished with a join failure returns the error to the caller
while the final trace holds no cursor-restore and no viewport-clear — the
terminal is not restored before the error is surfaced, refuting both the
every-exit-path teardown and the restore-before-error parts of the claim. -/
theorem background_failure_skips_teardown :
    step (fun (s : Nat) (_ : Nat) => s) (fun _ => true) ⟨0, [], [], 0⟩
        (Input.Finished (Except.error ⟨true⟩ : Except JoinError Nat))
      = Outcome.ret (Except.error (IOError.fromJoin ⟨true⟩)) ⟨0, [], [], 0⟩
  ∧ countOp isShowCursor ([] : List TermOp) = 0
  ∧ countOp isClear ([] : List TermOp) = 0 :=
  ⟨rfl, rfl, rfl⟩

/-- Claim C4 (amended): the viewport is torn down exactly once (cursor
restored then region cleared) on the normal-completion and interrupt exit
paths, when those two terminal operations succeed; on a background-task
failure the error is surfaced to run's caller immediately with no terminal
restoration at all, and on a terminal I/O failure during a render the error
is surfaced with the trace unchanged (no teardown performed). -/
theorem teardown_per_exit_path
    (upd : S → M → S) (st : LoopState S M) (t : T) (je : JoinError) :
    (∀ beh : Nat → Bool, beh st.opCount = true → beh (st.opCount + 1) = true →
      step upd beh st (Input.Finished (Except.ok t))
        = Outcome.ret (Except.ok t)
            { st with
              trace := st.trace ++ [TermOp.showCursor, TermOp.clear]
              opCount := st.opCount + 2 }
      ∧ step (T := T) upd beh st Input.Term
        = Outcome.exited 0
            { st with
              trace := st.trace ++ [TermOp.showCursor, TermOp.clear]
              opCount := st.opCount + 2 })
  ∧ (∀ beh : Nat → Bool,
      step (T := T) upd beh st (Input.Finished (Except.error je))
        = Outcome.ret (Except.error (IOError.fromJoin je)) st)
  ∧ (∀ beh : Nat → Bool, beh st.opCount = false →
      ∃ e st1,
        step (T := T) upd beh st Input.Render = Outcome.ret (Except.error e) st1
        ∧ st1.trace = st.trace) := by
  refine ⟨fun beh h1 h2 => ⟨?_, ?_⟩, fun beh => ?_, fun beh hb => ?_⟩
  · simp [step, termOp, h1, h2]
  · simp [step, termOp, h1, h2]
  · simp [step]
  · by_cases hp : printsOf st.queue = []
    · exact ⟨IOError.termFail st.opCount TermOp.draw,
        { st with program := List.foldl upd st.program (messagesOf st.queue), queue := [] },
        by simp [step, drain_eq, hp, termOp, hb, List.isEmpty_iff], rfl⟩
    · exact ⟨IOError.termFail st.opCount
          (TermOp.insertBefore ((flatLines (printsOf st.queue)).length % 65536)
            (flatLines (printsOf st.queue))),
        { st with program := List.foldl upd st.program (messagesOf st.queue), queue := [] },
        by simp [step, drain_eq, hp, termOp, hb, List.isEmpty_iff], rfl⟩

theorem teardown_per_exit_path_witness :
    (step (fun (s : Nat) (_ : Nat) => s) (fun _ => true) ⟨0, [], [], 0⟩
        (Input.Finished (Except.ok 5))
      = Outcome.ret (Except.ok 5) ⟨0, [], [TermOp.showCursor, TermOp.clear], 2⟩)
  ∧ (step (T := Nat) (fun (s : Nat) (_ : Nat) => s) (fun _ => true) ⟨0, [], [], 0⟩
        Input.Term
      = Outcome.exited 0 ⟨0, [], [TermOp.showCursor, TermOp.clear], 2⟩)
  ∧ (step (fun (s : Nat) (_ : Nat) => s) (fun _ => true) ⟨0, [], [], 0⟩
        (Input.Finished (Except.error ⟨false⟩ : Except JoinError Nat))
      = Outcome.ret (Except.error (IOError.fromJoin ⟨false⟩)) ⟨0, [], [], 0⟩)
  ∧ (∃ e st1,
      step (T := Nat) (fun (s : Nat) (_ : Nat) => s) (fun _ => false) ⟨0, [], [], 0⟩
          Input.Render
        = Outcome.ret (Except.error e) st1
      ∧ st1.trace = ([] : List TermOp)) := by
  obtain ⟨h1, h2, h3⟩ :=
    teardown_per_exit_path (T := Nat) (fun (s : Nat) (_ : Nat) => s)
      ⟨0, [], [], 0⟩ 5 ⟨false⟩
  obtain ⟨ha, hb⟩ := h1 (fun _ => true) rfl rfl
  exact ⟨ha, hb, h2 (fun _ => true), h3 (fun _ => false) rfl⟩

end Tui

namespace Tui

theorem printsOf_replicate_print (n : Nat) (c : String) :
    printsOf (M := M) (List.replicate n (Event.Print c)) = List.replicate n c := by
  induction n with
  | zero => rfl
  | succ n ih => simp [List.replicate_succ, printsOf, ih]

theorem messagesOf_replicate_print (n : Nat) (c : String) :
    messagesOf (M := M) (List.replicate n (Event.Print c)) = [] := by
  induction n with
  | zero => rfl
  | succ n ih => simp [List.replicate_succ, messagesOf, ih]

theorem flatLines_replicate_of_single (n : Nat) (c : String)
    (h : rustLines c = [c]) :
    flatLines (List.replicate n c) = List.replicate n c := by
  induction n with
  | zero => rfl
  | succ n ih =>
    simp only [List.replicate_succ, flatLines, List.map_cons, List.flatten_cons, h]
    simp only [flatLines] at ih
    rw [ih]
    rfl

/-- Claim C6 counterexample: the height handed to the terminal's
insert_before is the line count cast to u16. A Render tick that drains
65536 single-line Print events produces 65536 scrollback lines but inserts
a block of height 65536 mod 2^16 = 0 — not one of height 65536 as the
claim ("inserted as that many individual scrollback lines") requires. -/
theorem insert_height_truncated_to_u16 :
    step (T := Unit) (fun (s : Unit) (_ : Unit) => s) (fun _ => true)
        ⟨(), List.replicate 65536 (Event.Print "x"), [], 0⟩ Input.Render
      = Outcome.next
          ⟨(), [], [TermOp.insertBefore 0 (List.replicate 65536 "x"), TermOp.draw], 2⟩
  ∧ (List.replicate 65536 "x").length = 65536
  ∧ (0 : Nat) ≠ 65536 := by
  refine ⟨?_, by rw [List.length_replicate], by decide⟩
  have hx : rustLines "x" = ["x"] := by decide
  have hrepl : ¬(List.replicate 65536 "x" = []) := by
    rw [List.replicate_eq_nil_iff]
    omega
  rw [step_render _ _ _ (fun _ => rfl)]
  dsimp only
  rw [messagesOf_replicate_print, printsOf_replicate_print,
    flatLines_replicate_of_single _ _ hx, if_neg hrepl, if_neg hrepl,
    List.length_replicate, Nat.mod_self]
  rfl

end Tui

namespace Tui

/-- Claim C6 (amended): on a Render tick that drained at least one Print
event, the drained print texts are split on line breaks and the resulting
individual lines are inserted as one scrollback block immediately above
the live viewport, before the tick's single redraw; the height passed to
the terminal is the number of lines reduced modulo 65536 (the u16 cast at
the insert_before call). For a tick that drained no Print events, no
scrollback insertion is performed at all. -/
theorem print_lines_split_inserted_before_redraw
    (upd : S → M → S) (beh : Nat → Bool) (st : LoopState S M)
    (hbeh : ∀ n, beh n = true) :
    ∃ st1, step (T := T) upd beh st Input.Render = Outcome.next st1
      ∧ st1.trace = st.trace ++
          (if printsOf st.queue = [] then [TermOp.draw]
           else [TermOp.insertBefore ((flatLines (printsOf st.queue)).length % 65536)
                   (flatLines (printsOf st.queue)), TermOp.draw]) :=
  ⟨_, step_render upd beh st hbeh, rfl⟩

theorem print_lines_split_inserted_before_redraw_witness :
    (∀ n, (fun _ : Nat => true) n = true) ∧
    (∃ st1,
      step (T := Unit) (fun (s : Unit) (_ : Unit) => s) (fun _ => true)
          ⟨(), [Event.Print "a\nb", Event.Print "c"], [], 0⟩ Input.Render
        = Outcome.next st1
      ∧ st1.trace = [TermOp.insertBefore 3 ["a", "b", "c"], TermOp.draw]) := by
  refine ⟨fun _ => rfl, ?_⟩
  obtain ⟨st1, h1, h2⟩ :=
    print_lines_split_inserted_before_redraw (fun (s : Unit) (_ : Unit) => s)
      (fun _ => true) ⟨(), [Event.Print "a\nb", Event.Print "c"], [], 0⟩
      (fun _ => rfl)
  refine ⟨st1, h1, ?_⟩
  rw [h2]
  decide

/-- Claim C7: Handle.update and Handle.print are total fire-and-forget
operations: for every channel state they return (only) the new channel
state — an enqueue when the receiver is alive, a silent no-op leaving the
channel untouched when the receiver has been dropped; the send failure the
channel reports in the dead-receiver case is discarded and never surfaced
to the caller. -/
theorem handle_send_fire_and_forget (ch : UnboundedChannel M)
    (content : String) (message : M) :
    Handle.print ch content
      = (if ch.receiverAlive then
           { ch with queue := ch.queue ++ [Event.Print content] } else ch)
  ∧ Handle.update ch message
      = (if ch.receiverAlive then
           { ch with queue := ch.queue ++ [Event.Message message] } else ch)
  ∧ (channelSend ch (Event.Print content)).2
      = (if ch.receiverAlive then Except.ok ()
         else Except.error (Event.Print content))
  ∧ (channelSend ch (Event.Message message)).2
      = (if ch.receiverAlive then Except.ok ()
         else Except.error (Event.Message message)) := by
  by_cases h : ch.receiverAlive <;>
    simp [Handle.print, Handle.update, channelSend, h]

/-- Claim C8: for any interleaved sequence of sends from any number of
producers (each send tagged with its producer's index), a channel whose
receiver is alive loses and duplicates nothing: the delivered queue equals
the full send sequence, its length equals the number of sends, and the
events of each single producer form an in-order subsequence of the queue
(that producer's send order is preserved). -/
theorem channel_lossless_per_producer_fifo (sends : List (Nat × Event M)) :
    (sendAll ⟨true, []⟩ (sends.map Prod.snd)).queue = sends.map Prod.snd
  ∧ (sendAll ⟨true, []⟩ (sends.map Prod.snd)).queue.length = sends.length
  ∧ ∀ i : Nat,
      List.Sublist ((sends.filter (fun pr => pr.1 == i)).map Prod.snd)
        (sendAll ⟨true, []⟩ (sends.map Prod.snd)).queue := by
  have h := sendAll_alive (M := M) [] (sends.map Prod.snd)
  refine ⟨by rw [h]; simp, by rw [h]; simp, fun i => ?_⟩
  rw [h]
  simp only [List.nil_append]
  exact List.Sublist.map Prod.snd (List.filter_sublist sends)

end Tui

namespace Boulder

theorem stripRootDir_not_absolute (q : RustPath) :
    (stripRootDir q).absolute = false := by
  by_cases h : q.absolute <;> simp [stripRootDir, h]

theorem join_of_relative (p q : RustPath) (h : q.absolute = false) :
    p.join q = ⟨p.absolute, p.components ++ q.components⟩ := by
  simp [RustPath.join, h]

/-- Claim C9: for every Paths value and every Mapping, guest_host_path is
the rootfs host directory (host_root joined with "root" joined with the
id) joined with the guest path stripped of one leading slash when present;
consequently the result always stays inside the rootfs host directory —
it keeps the rootfs host's absolute flag and extends its components —
rather than landing on the host filesystem root. -/
theorem guest_host_path_inside_rootfs (p : Paths) (m : Mapping) :
    p.guest_host_path m
      = ((p.host_root.join (parsePath "root")).join (parsePath p.id)).join
          (stripRootDir m.guest)
  ∧ (p.guest_host_path m).absolute = (p.rootfs).host.absolute
  ∧ ∃ rest, (p.guest_host_path m).components
      = (p.rootfs).host.components ++ rest := by
  refine ⟨rfl, ?_, ⟨(stripRootDir m.guest).components, ?_⟩⟩ <;>
    rw [Paths.guest_host_path,
      join_of_relative _ _ (stripRootDir_not_absolute m.guest)]

/-- Claim C10: for every Paths value, the rootfs mapping's guest path is
exactly the root path "/" (absolute, no components), and translating the
rootfs mapping through guest_host_path returns the rootfs mapping's own
host path — the rootfs mapping is a fixed point of the guest-to-host
translation. -/
theorem rootfs_guest_is_root_and_fixed_point (p : Paths) :
    (p.rootfs).guest = parsePath "/"
  ∧ parsePath "/" = ⟨true, []⟩
  ∧ p.guest_host_path (p.rootfs) = (p.rootfs).host := by
  have hroot : parsePath "/" = ⟨true, []⟩ := by decide
  refine ⟨rfl, hroot, ?_⟩
  rw [Paths.guest_host_path]
  show (p.rootfs).host.join (stripRootDir (parsePath "/")) = (p.rootfs).host
  rw [hroot]
  rw [show stripRootDir ⟨true, []⟩ = ⟨false, []⟩ from rfl]
  rw [join_of_relative _ _ rfl]
  simp

end Boulder
